import Mathlib

/-!
Verification of the `areisss/data-engineering-projects` personal cloud data
platform: a shallow embedding of its chat-ingestion pipeline (format
validation, bronze copy, Glue silver transformation), photo pipeline
(thumbnailing, tag derivation, metadata records), query service (SQL
construction with escaping, Athena polling/pagination) and the upload
router of the React home page, together with theorems settling the
specification claims.
-/

set_option maxRecDepth 20000

namespace DataPlatform

/-! ## 32-bit word helpers and SHA-256

The Glue job computes `message_id = SHA-256(f"{source_file}:{line_index}")[:16]`
(`glue_jobs/whatsapp_silver/job.py`, quoted in `docs/LEARNING.md`).  We embed
SHA-256 over byte lists, with 32-bit words as `Nat` reduced mod `2 ^ 32`. -/

def w32 (n : Nat) : Nat := n % 4294967296

def rotr (x n : Nat) : Nat := w32 ((x >>> n) ||| (x <<< (32 - n)))

def bigS0 (x : Nat) : Nat := (rotr x 2) ^^^ (rotr x 13) ^^^ (rotr x 22)

def bigS1 (x : Nat) : Nat := (rotr x 6) ^^^ (rotr x 11) ^^^ (rotr x 25)

def smlS0 (x : Nat) : Nat := (rotr x 7) ^^^ (rotr x 18) ^^^ (x >>> 3)

def smlS1 (x : Nat) : Nat := (rotr x 17) ^^^ (rotr x 19) ^^^ (x >>> 10)

def shaK : List Nat :=
  [1116352408, 1899447441, 3049323471, 3921009573, 961987163, 1508970993,
   2453635748, 2870763221, 3624381080, 310598401, 607225278, 1426881987,
   1925078388, 2162078206, 2614888103, 3248222580, 3835390401, 4022224774,
   264347078, 604807628, 770255983, 1249150122, 1555081692, 1996064986,
   2554220882, 2821834349, 2952996808, 3210313671, 3336571891, 3584528711,
   113926993, 338241895, 666307205, 773529912, 1294757372, 1396182291,
   1695183700, 1986661051, 2177026350, 2456956037, 2730485921, 2820302411,
   3259730800, 3345764771, 3516065817, 3600352804, 4094571909, 275423344,
   430227734, 506948616, 659060556, 883997877, 958139571, 1322822218,
   1537002063, 1747873779, 1955562222, 2024104815, 2227730452, 2361852424,
   2428436474, 2756734187, 3204031479, 3329325298]

def shaH0 : List Nat :=
  [1779033703, 3144134277, 1013904242, 2773480762,
   1359893119, 2600822924, 528734635, 1541459225]

def be64 (n : Nat) : List Nat :=
  [(n >>> 56) % 256, (n >>> 48) % 256, (n >>> 40) % 256, (n >>> 32) % 256,
   (n >>> 24) % 256, (n >>> 16) % 256, (n >>> 8) % 256, n % 256]

/-- Append the `0x80` byte, zero padding to 56 mod 64, and the 64-bit
big-endian bit length. -/
def padMessage (msg : List Nat) : List Nat :=
  let z := (120 - (msg.length + 1) % 64) % 64
  msg ++ [128] ++ List.replicate z 0 ++ be64 (8 * msg.length)

/-- Combine a byte list into big-endian 32-bit words. -/
def toWords : List Nat → List Nat
  | b0 :: b1 :: b2 :: b3 :: rest =>
      (((b0 * 256 + b1) * 256 + b2) * 256 + b3) :: toWords rest
  | _ => []

/-- One step of the SHA-256 message-schedule extension. -/
def schedStep (w : Array Nat) : Array Nat :=
  let i := w.size
  w.push (w32 (w.getD (i - 16) 0 + smlS0 (w.getD (i - 15) 0) +
    w.getD (i - 7) 0 + smlS1 (w.getD (i - 2) 0)))

def iterN (f : α → α) : Nat → α → α
  | 0, a => a
  | n + 1, a => iterN f n (f a)

/-- One SHA-256 compression round on the state `[a,b,c,d,e,f,g,h]`. -/
def roundFn (ki wi : Nat) : List Nat → List Nat
  | [a, b, c, d, e, f, g, h] =>
      let ch := (e &&& f) ^^^ ((e ^^^ 4294967295) &&& g)
      let t1 := w32 (h + bigS1 e + ch + ki + wi)
      let maj := (a &&& b) ^^^ (a &&& c) ^^^ (b &&& c)
      let t2 := w32 (bigS0 a + maj)
      [w32 (t1 + t2), a, b, c, w32 (d + t1), e, f, g]
  | s => s

/-- Compress one 16-word chunk into the running hash state. -/
def compressChunk (h : List Nat) (chunk : List Nat) : List Nat :=
  let w := iterN schedStep 48 chunk.toArray
  let final := (List.zip shaK w.toList).foldl (fun s p => roundFn p.1 p.2 s) h
  (List.zip h final).map (fun p => w32 (p.1 + p.2))

def chunk16 (l : List Nat) : List (List Nat) :=
  if h : l = [] then [] else l.take 16 :: chunk16 (l.drop 16)
termination_by l.length
decreasing_by
  simp only [List.length_drop]
  have hl : l.length ≠ 0 := fun hh => h (List.length_eq_zero.mp hh)
  omega

def hexDigit (n : Nat) : Char :=
  if n < 10 then Char.ofNat (48 + n) else Char.ofNat (87 + n)

def hex8 (n : Nat) : List Char :=
  [hexDigit ((n >>> 28) % 16), hexDigit ((n >>> 24) % 16),
   hexDigit ((n >>> 20) % 16), hexDigit ((n >>> 16) % 16),
   hexDigit ((n >>> 12) % 16), hexDigit ((n >>> 8) % 16),
   hexDigit ((n >>> 4) % 16), hexDigit (n % 16)]

/-- SHA-256 of a string (UTF-8 bytes), as a 64-character lowercase hex digest. -/
def sha256hex (s : String) : String :=
  let bytes := s.toUTF8.toList.map (fun b => b.toNat)
  let hs := (chunk16 (toWords (padMessage bytes))).foldl compressChunk shaH0
  String.mk (hs.map hex8).flatten

/-- The stable message identifier of the Glue job: the first 16 hex characters of
`SHA-256(f"{source_file}:{line_index}")`. -/
def make_message_id (sourceFile : String) (lineIndex : Nat) : String :=
  String.mk ((sha256hex (sourceFile ++ ":" ++ toString lineIndex)).data.take 16)

/-! ## The WhatsApp chat line grammar

The Glue job matches each line against an ordered list of regex grammars
(`DATE_PATTERNS` in `docs/LEARNING.md`): a US/international numeric date with
`/` separators, or with `-`/`.` separators, optionally preceded by `[`, then
an optional comma, whitespace, a time with optional seconds and optional
AM/PM, an optional `]`, and a hyphen (or, per `docs/GLUE.md`, an en-dash)
sender separator followed by `sender: message`.  The first pattern that
matches wins; non-matching lines are dropped. -/

def squote : Char := Char.ofNat 39

def nlChar : Char := Char.ofNat 10

def endash : Char := Char.ofNat 8211

/-- Split a character list on a separator character (kernel-reducible
analogue of `String.splitOn` with a single-character separator). -/
def splitOnChar (c : Char) : List Char → List (List Char)
  | [] => [[]]
  | x :: r =>
    let rest := splitOnChar c r
    if x = c then [] :: rest
    else
      match rest with
      | h :: t => (x :: h) :: t
      | [] => [[x]]

/-- ASCII lowercasing of a string, character by character. -/
def lowerStr (s : String) : String := String.mk (s.data.map (fun c => c.toLower))

/-- Greedy run of decimal digits, as in a regex `\d*`. -/
def digitSpan (l : List Char) : List Char × List Char :=
  l.span (fun c => c.isDigit)

/-- Greedy run of whitespace, as in a regex `\s*`. -/
def wsSpan (l : List Char) : List Char × List Char :=
  l.span (fun c => c.isWhitespace)

/-- Consume an optional single occurrence of `c`, as in a regex `c?`. -/
def dropOpt (c : Char) : List Char → List Char
  | [] => []
  | x :: r => if x = c then r else x :: r

/-- Match `\d{1,2}sep\d{1,2}sep\d{2,4}` where each separator is drawn from
`seps`; returns the matched date text and the remainder. -/
def parseDatePart (seps : List Char) (l : List Char) :
    Option (List Char × List Char) :=
  let (d1, r1) := digitSpan l
  if 1 ≤ d1.length ∧ d1.length ≤ 2 then
    match r1 with
    | s1 :: r2 =>
      if s1 ∈ seps then
        let (d2, r3) := digitSpan r2
        if 1 ≤ d2.length ∧ d2.length ≤ 2 then
          match r3 with
          | s2 :: r4 =>
            if s2 ∈ seps then
              let (d3, r5) := digitSpan r4
              if 2 ≤ d3.length ∧ d3.length ≤ 4 then
                some (d1 ++ s1 :: d2 ++ s2 :: d3, r5)
              else none
            else none
          | [] => none
        else none
      else none
    | [] => none
  else none

/-- Optional `:\d\d` seconds group. -/
def parseOptSeconds : List Char → List Char × List Char
  | c :: d1 :: d2 :: r =>
    if c = ':' ∧ d1.isDigit ∧ d2.isDigit then ([c, d1, d2], r)
    else ([], c :: d1 :: d2 :: r)
  | l => ([], l)

/-- Optional `\s*[AP]M` suffix. -/
def parseOptAmPm (l : List Char) : List Char × List Char :=
  let (ws, r) := wsSpan l
  match r with
  | a :: m :: r2 =>
    if (a = 'A' ∨ a = 'P') ∧ m = 'M' then (ws ++ [a, m], r2) else ([], l)
  | _ => ([], l)

/-- Match `\d{1,2}:\d{2}(?::\d{2})?(?:\s*[AP]M)?`. -/
def parseTime (l : List Char) : Option (List Char × List Char) :=
  let (hh, r1) := digitSpan l
  if 1 ≤ hh.length ∧ hh.length ≤ 2 then
    match r1 with
    | c :: m1 :: m2 :: r2 =>
      if c = ':' ∧ m1.isDigit ∧ m2.isDigit then
        let (sec, r3) := parseOptSeconds r2
        let (ampm, r4) := parseOptAmPm r3
        some (hh ++ c :: m1 :: m2 :: (sec ++ ampm), r4)
      else none
    | _ => none
  else none

/-- Lazy `(.+?):\s+(.*)$`: split at the first `:` (preceded by at least one
character) that is followed by whitespace; the greedy `\s+` run is consumed. -/
def headIsWs : List Char → Bool
  | w :: _ => w.isWhitespace
  | [] => false

def splitSender (acc : List Char) : List Char → Option (List Char × List Char)
  | [] => none
  | c :: rest =>
    if c = ':' ∧ acc ≠ [] ∧ headIsWs rest then
      some (acc.reverse, (wsSpan rest).2)
    else splitSender (c :: acc) rest

/-- Match one full chat-line pattern with the given date separators. -/
def matchWithSeps (seps : List Char) (line : List Char) :
    Option (String × String × String × String) :=
  match parseDatePart seps (dropOpt '[' line) with
  | none => none
  | some (dateChars, r1) =>
    let (ws1, r3) := wsSpan (dropOpt ',' r1)
    if ws1.isEmpty then none else
    match parseTime r3 with
    | none => none
    | some (timeChars, r4) =>
      let (ws2, r6) := wsSpan (dropOpt ']' r4)
      if ws2.isEmpty then none else
      match r6 with
      | [] => none
      | c :: r7 =>
        if c = '-' ∨ c = endash then
          let (ws3, r8) := wsSpan r7
          if ws3.isEmpty then none else
          match splitSender [] r8 with
          | none => none
          | some (senderChars, msgChars) =>
            some (String.mk dateChars, String.mk timeChars,
              String.mk senderChars, String.mk msgChars)
        else none

/-- Ordered first-match-wins dispatch over the two date grammars:
slash-separated first, then dash/dot-separated. -/
def matchChatLine (line : String) :
    Option (String × String × String × String) :=
  match matchWithSeps ['/'] line.data with
  | some r => some r
  | none => matchWithSeps ['-', '.'] line.data

/-! ## Date normalisation (`parse_date_iso`)

Modelled from the spec: `parse_date_iso` of `glue_jobs/whatsapp_silver/job.py`
is not under `src/`; per `docs/GLUE.md` it attempts the four `strptime`
formats `%m/%d/%y`, `%m/%d/%Y`, `%d/%m/%y`, `%d/%m/%Y` in that order and
returns the raw string unchanged when none matches.  We reproduce CPython
`strptime` semantics for these formats: `%m`/`%d` match 1-2 digits, `%y`
exactly 2 digits (pivot 69: `00`-`68` map to 2000s), `%Y` exactly 4 digits,
and the resulting calendar date must be valid. -/

def isLeap (y : Nat) : Bool := (y % 4 = 0 ∧ y % 100 ≠ 0) ∨ y % 400 = 0

def daysInMonth (y m : Nat) : Nat :=
  if m = 2 then (if isLeap y then 29 else 28)
  else if m = 4 ∨ m = 6 ∨ m = 9 ∨ m = 11 then 30
  else 31

def allDigits (l : List Char) : Bool := l.all (fun c => c.isDigit)

def digitsToNat (l : List Char) : Nat :=
  l.foldl (fun acc c => acc * 10 + (c.toNat - 48)) 0

def pad2 (n : Nat) : String :=
  if n < 10 then "0" ++ toString n else toString n

def pad4 (n : Nat) : String :=
  if n < 10 then "000" ++ toString n
  else if n < 100 then "00" ++ toString n
  else if n < 1000 then "0" ++ toString n
  else toString n

/-- A `strptime` date format: month-first or day-first, two- or four-digit
year, with `/` separators. -/
structure DateFmt where
  monthFirst : Bool
  twoDigitYear : Bool
deriving DecidableEq, Repr

/-- The four formats `%m/%d/%y`, `%m/%d/%Y`, `%d/%m/%y`, `%d/%m/%Y`,
in the fixed priority order the job tries them. -/
def DATE_FORMATS : List DateFmt :=
  [⟨true, true⟩, ⟨true, false⟩, ⟨false, true⟩, ⟨false, false⟩]

/-- One strptime attempt, `datetime.strptime(s, fmt).strftime("%Y-%m-%d")`, or `none` on
`ValueError`. -/
def tryStrptime (fmt : DateFmt) (s : String) : Option String :=
  match splitOnChar '/' s.data with
  | [a, b, c] =>
    if 1 ≤ a.length ∧ a.length ≤ 2 ∧ allDigits a ∧
       1 ≤ b.length ∧ b.length ≤ 2 ∧ allDigits b ∧
       (if fmt.twoDigitYear then c.length = 2 else c.length = 4) ∧
       allDigits c then
      let month := if fmt.monthFirst then digitsToNat a else digitsToNat b
      let day := if fmt.monthFirst then digitsToNat b else digitsToNat a
      let yraw := digitsToNat c
      let year := if fmt.twoDigitYear then
          (if yraw ≤ 68 then 2000 + yraw else 1900 + yraw) else yraw
      if 1 ≤ month ∧ month ≤ 12 ∧ 1 ≤ day ∧ day ≤ daysInMonth year month ∧
         1 ≤ year then
        some (pad4 year ++ "-" ++ pad2 month ++ "-" ++ pad2 day)
      else none
    else none
  | _ => none

/-- Try the four formats in order; keep the raw string when all fail. -/
def parse_date_iso (s : String) : String :=
  match (DATE_FORMATS.filterMap (fun f => tryStrptime f s)).head? with
  | some r => r
  | none => s

/-! ## The Chat Transformer (silver job) -/

structure ChatRecord where
  message_id : String
  date : String
  time : String
  sender : String
  message : String
  source_file : String
  line_index : Nat
deriving DecidableEq, Repr

def splitLines (s : String) : List String :=
  (splitOnChar nlChar s.data).map String.mk

/-- Parse one bronze artifact: every line is matched against the chat
grammars; matching lines become records (with the line index keyed into the
`message_id`), non-matching lines are dropped. -/
def parseFile (sourceFile content : String) : List ChatRecord :=
  (splitLines content).enum.filterMap (fun p =>
    match matchChatLine p.2 with
    | none => none
    | some (d, t, sender, msg) =>
      some { message_id := make_message_id sourceFile p.1,
             date := parse_date_iso d, time := t, sender := sender,
             message := msg, source_file := sourceFile, line_index := p.1 })

/-- A bronze artifact: `(source file key, text content)`. -/
abbrev Bronze := List (String × String)

/-- All records of a full transformer run: every bronze artifact is re-read
and parsed (full recompute, no partition pruning). -/
def transformRecords (bronze : Bronze) : List ChatRecord :=
  bronze.flatMap (fun a => parseFile a.1 a.2)

/-- The silver store: date partition key to partition contents. -/
abbrev Store := String → Option (List ChatRecord)

/-- The partition a run would write for date key `k`. -/
def partitionOf (bronze : Bronze) (k : String) : List ChatRecord :=
  (transformRecords bronze).filter (fun r => r.date = k)

/-- The `overwrite_partitions` write mode: each date that has records in this run
gets its partition wholly replaced; partitions for other dates are left
untouched. -/
def runTransform (bronze : Bronze) (store : Store) : Store :=
  fun k =>
    if (partitionOf bronze k).isEmpty then store k
    else some (partitionOf bronze k)

/-! ## Theorems about the Chat Transformer -/

theorem parseFile_id (sf content : String) (r : ChatRecord)
    (hr : r ∈ parseFile sf content) :
    r.message_id = make_message_id r.source_file r.line_index := by
  simp only [parseFile, List.mem_filterMap] at hr
  obtain ⟨p, _, he⟩ := hr
  revert he
  cases matchChatLine p.2 with
  | none => intro he; cases he
  | some v =>
    obtain ⟨d, t, s, m⟩ := v
    intro he
    cases he
    rfl

/-- C1: running the Chat Transformer twice on identical bronze input yields
identical stored partition contents (the second run is a no-op on the store),
every emitted record's `message_id` equals the first 16 hex characters of the
SHA-256 digest of `source_file:line_index`, and `make_message_id` is by
definition a function of `(source_file, line_index)` alone. -/
theorem chat_transformer_idempotent :
    (∀ (bronze : Bronze) (store : Store),
      runTransform bronze (runTransform bronze store) = runTransform bronze store) ∧
    (∀ bronze : Bronze,
      (transformRecords bronze).all
        (fun r => r.message_id == make_message_id r.source_file r.line_index) = true) ∧
    (∀ (sourceFile : String) (lineIndex : Nat),
      make_message_id sourceFile lineIndex =
        String.mk ((sha256hex (sourceFile ++ ":" ++ toString lineIndex)).data.take 16)) := by
  refine ⟨?_, ?_, fun _ _ => rfl⟩
  · intro bronze store
    funext k
    show (if (partitionOf bronze k).isEmpty then runTransform bronze store k
        else some (partitionOf bronze k)) = runTransform bronze store k
    by_cases h : (partitionOf bronze k).isEmpty
    · rw [if_pos h]
    · rw [if_neg h]
      show _ = if (partitionOf bronze k).isEmpty then store k
        else some (partitionOf bronze k)
      rw [if_neg h]
  · intro bronze
    rw [List.all_eq_true]
    intro r hr
    simp only [transformRecords, List.mem_flatMap] at hr
    obtain ⟨a, _, hra⟩ := hr
    simpa using parseFile_id a.1 a.2 r hra

/-- C4: re-running the transformer after appending bronze input whose records
all carry one new date `d` leaves the stored contents of every other
partition identical to what they were before the re-run. -/
theorem transformer_partition_isolation :
    ∀ (bronze : Bronze) (name content d : String) (store : Store),
      (∀ r ∈ parseFile name content, r.date = d) →
      ∀ k, k ≠ d →
        runTransform (bronze ++ [(name, content)]) (runTransform bronze store) k =
          runTransform bronze store k := by
  intro bronze name content d store hall k hk
  have hnew : (parseFile name content).filter (fun r => r.date = k) = [] := by
    rw [List.filter_eq_nil_iff]
    intro r hr
    simp only [decide_eq_true_eq]
    rw [hall r hr]
    exact fun he => hk he.symm
  have hpart : partitionOf (bronze ++ [(name, content)]) k = partitionOf bronze k := by
    simp only [partitionOf, transformRecords, List.flatMap_append,
      List.flatMap_cons, List.flatMap_nil, List.append_nil, List.filter_append,
      hnew]
  show (if (partitionOf (bronze ++ [(name, content)]) k).isEmpty then
      runTransform bronze store k
    else some (partitionOf (bronze ++ [(name, content)]) k)) =
    runTransform bronze store k
  rw [hpart]
  by_cases h : (partitionOf bronze k).isEmpty
  · rw [if_pos h]
  · rw [if_neg h]
    show _ = if (partitionOf bronze k).isEmpty then store k
      else some (partitionOf bronze k)
    rw [if_neg h]

/-- An initially empty silver store, used by concrete witnesses. -/
def demoStore : Store := fun _ => none

/-- Witness for C4: with an existing bronze export dated 2024-01-02,
appending a new export whose single message is dated 2024-02-02 and
re-running leaves the 2024-01-02 partition exactly as it was. -/
theorem transformer_partition_isolation_witness :
    (∀ r ∈ parseFile "b.txt" "2/2/24, 11:00 - Bob: yo", r.date = "2024-02-02") ∧
    ("2024-01-02" : String) ≠ "2024-02-02" ∧
    runTransform ([("a.txt", "1/2/24, 10:00 - Alice: hi")] ++
        [("b.txt", "2/2/24, 11:00 - Bob: yo")])
      (runTransform [("a.txt", "1/2/24, 10:00 - Alice: hi")] demoStore)
      "2024-01-02" =
    runTransform [("a.txt", "1/2/24, 10:00 - Alice: hi")] demoStore "2024-01-02" :=
  ⟨by decide, by decide,
    transformer_partition_isolation [("a.txt", "1/2/24, 10:00 - Alice: hi")]
      "b.txt" "2/2/24, 11:00 - Bob: yo" "2024-02-02" demoStore (by decide)
      "2024-01-02" (by decide)⟩

/-! ## The Format Validator (`whatsapp_bronze`) -/

/-- Modelled from the spec: the complete `whatsapp_bronze/handler.py` is not
under `src/` (only an abridged excerpt in `docs/LEARNING.md`); per the spec and
`docs/LAMBDAS.md` a line matches the WhatsApp timestamp grammar when it has a
numeric date in either month-first or day-first order (separators `/`, `-`,
`.`), optional enclosing brackets, a time with optional AM/PM suffix, and is
followed by a sender/body separator. -/
def validatorLineMatch (line : String) : Bool :=
  match parseDatePart ['/', '-', '.'] (dropOpt '[' line.data) with
  | none => false
  | some (_, r1) =>
    let (ws1, r3) := wsSpan (dropOpt ',' r1)
    if ws1.isEmpty then false else
    match parseTime r3 with
    | none => false
    | some (_, r4) =>
      let (ws2, r6) := wsSpan (dropOpt ']' r4)
      if ws2.isEmpty then false else
      match r6 with
      | c :: _ => decide (c = '-' ∨ c = endash)
      | [] => false

def nonEmptyLines (content : String) : List String :=
  (splitLines content).filter (fun l => !l.isEmpty)

/-- Modelled from the spec: number of lines among the first 20 non-empty
lines that match the timestamp grammar. -/
def validatorMatchCount (content : String) : Nat :=
  ((nonEmptyLines content).take 20).countP validatorLineMatch

/-- Modelled from the spec: accept requires at least 2 matching lines among
the first 20 non-empty lines. -/
def validatorAccepts (content : String) : Bool :=
  decide (2 ≤ validatorMatchCount content)

def bronzeDestKey (year month : Nat) (filename : String) : String :=
  "bronze/whatsapp/year=" ++ toString year ++ "/month=" ++ pad2 month ++
    "/" ++ filename

/-- Modelled from the spec: on accept the artifact is copied to the bronze
partition key; on reject nothing is written (`none`). -/
def whatsapp_bronze_handler (filename content : String) (year month : Nat) :
    Option (String × String) :=
  if validatorAccepts content then
    some (bronzeDestKey year month filename, content)
  else none

/-- C2: the validator accepts iff at least 2 of the first 20 non-empty lines
match the timestamp grammar; with exactly 1 matching line the artifact is
rejected and no bronze copy is written, with exactly 2 it is accepted and
copied to the bronze key. -/
theorem validator_threshold :
    ∀ (filename content : String) (year month : Nat),
      (whatsapp_bronze_handler filename content year month ≠ none ↔
        2 ≤ validatorMatchCount content) ∧
      (validatorMatchCount content = 1 →
        whatsapp_bronze_handler filename content year month = none) ∧
      (validatorMatchCount content = 2 →
        whatsapp_bronze_handler filename content year month =
          some (bronzeDestKey year month filename, content)) := by
  intro filename content year month
  refine ⟨?_, ?_, ?_⟩
  · by_cases h : 2 ≤ validatorMatchCount content <;>
      simp [whatsapp_bronze_handler, validatorAccepts, h]
  · intro h1
    simp [whatsapp_bronze_handler, validatorAccepts, h1]
  · intro h2
    simp [whatsapp_bronze_handler, validatorAccepts, h2]

def demoChatLine1 : String := "1/2/24, 10:00 - Alice: hi"

def demoChatLine2 : String := "1/2/24, 10:05 - Bob: yo"

def demoReject : String := demoChatLine1 ++ String.mk [nlChar] ++ "garbage line"

def demoAccept : String :=
  demoChatLine1 ++ String.mk [nlChar] ++ demoChatLine2 ++
    String.mk [nlChar] ++ "garbage line"

/-- Witness for C2: a blob with exactly 1 matching timestamp line is
rejected; one with exactly 2 is accepted and copied to the bronze key. -/
theorem validator_threshold_witness :
    validatorMatchCount demoReject = 1 ∧
    whatsapp_bronze_handler "export.txt" demoReject 2024 3 = none ∧
    validatorMatchCount demoAccept = 2 ∧
    whatsapp_bronze_handler "export.txt" demoAccept 2024 3 =
      some (bronzeDestKey 2024 3 "export.txt", demoAccept) :=
  ⟨by decide,
   (validator_threshold "export.txt" demoReject 2024 3).2.1 (by decide),
   by decide,
   (validator_threshold "export.txt" demoAccept 2024 3).2.2 (by decide)⟩

/-! ## SQL escaping and query construction (`whatsapp_api`)

`_escape_sql_string` is quoted verbatim in `docs/LEARNING.md`:
`value.replace("'", "''")`.  The surrounding query builder of
`whatsapp_api/handler.py` is not under `src/` and is modelled from the spec:
optional sender / free-text / date filters, each interpolated through the
escaping function inside single-quoted SQL string literals. -/

/-- Python `str.replace` doubling each quote, on the character list. -/
def escChars : List Char → List Char
  | [] => []
  | c :: rest =>
    if c = squote then squote :: squote :: escChars rest
    else c :: escChars rest

def _escape_sql_string (value : String) : String := String.mk (escChars value.data)

/-- A single-quote character as a string. -/
def sq : String := String.mk [squote]

/-- Modelled from the spec: the `LOWER(col) LIKE '%...%'` condition of the
chat query, as in the `docs/LEARNING.md` fragment
`f"LOWER(sender) LIKE '%{_escape_sql_string(sender.lower())}%'"`. -/
def likeCond (col v : String) : String :=
  "LOWER(" ++ col ++ ") LIKE " ++ sq ++ "%" ++ _escape_sql_string v ++ "%" ++ sq

def senderCond (sender : String) : String := likeCond "sender" (lowerStr sender)

def searchCond (search : String) : String := likeCond "message" (lowerStr search)

def dateCond (d : String) : String := "date = " ++ sq ++ _escape_sql_string d ++ sq

/-- Python `" AND ".join(conditions)`. -/
def joinAnd : List String → String
  | [] => ""
  | [c] => c
  | c :: rest => c ++ " AND " ++ joinAnd rest

/-- Modelled from the spec: the dynamically built Athena query of the chat
endpoint, with every caller-supplied string escaped before interpolation. -/
def buildChatsQuery (sender search date : Option String) (limit : Nat) : String :=
  let conds :=
    (match sender with | some s => [senderCond s] | none => []) ++
    (match search with | some s => [searchCond s] | none => []) ++
    (match date with | some s => [dateCond s] | none => [])
  "SELECT * FROM whatsapp_messages" ++
    (if conds.isEmpty then "" else " WHERE " ++ joinAnd conds) ++
    " ORDER BY date, time LIMIT " ++ toString limit

/-- Structural-validity scanner for a SQL string: state 0 is outside any
string literal, state 1 is inside, state 2 is inside having just read a
quote (which either closes the literal or is the first half of an escaped
doubled quote). -/
def sqlStep (state : Nat) (c : Char) : Nat :=
  if state = 0 then (if c = squote then 1 else 0)
  else if state = 1 then (if c = squote then 2 else 1)
  else (if c = squote then 1 else 0)

/-- A SQL string is structurally valid when every quote is either a literal
delimiter or a doubled (escaped) quote inside a literal: the scan must not
end inside an unterminated literal. -/
def sqlWellFormed (s : String) : Bool :=
  let final := s.data.foldl sqlStep 0
  decide (final = 0 ∨ final = 2)

theorem escChars_inside (v : List Char) :
    ∀ r : List Char, List.foldl sqlStep 1 (escChars v ++ r) =
      List.foldl sqlStep 1 r := by
  induction v with
  | nil => intro r; rfl
  | cons c rest ih =>
    intro r
    by_cases h : c = squote
    · simp only [escChars, if_pos h, List.cons_append, List.foldl_cons]
      have h1 : sqlStep 1 squote = 2 := rfl
      have h2 : sqlStep 2 squote = 1 := rfl
      rw [h1, h2, ih]
    · simp only [escChars, if_neg h, List.cons_append, List.foldl_cons]
      have h1 : sqlStep 1 c = 1 := by simp [sqlStep, h]
      rw [h1, ih]

theorem noQuote_outside (l : List Char) (h : ∀ c ∈ l, c ≠ squote) :
    List.foldl sqlStep 0 l = 0 := by
  induction l with
  | nil => rfl
  | cons c rest ih =>
    have hc : c ≠ squote := h c (by simp)
    simp only [List.foldl_cons]
    have h1 : sqlStep 0 c = 0 := by simp [sqlStep, hc]
    rw [h1]
    exact ih (fun x hx => h x (by simp [hx]))

theorem digitChar_ne_squote : ∀ n < 10, Nat.digitChar n ≠ squote := by decide

theorem toDigitsCore_ne_squote :
    ∀ (fuel n : Nat) (ds : List Char), (∀ c ∈ ds, c ≠ squote) →
      ∀ c ∈ Nat.toDigitsCore 10 fuel n ds, c ≠ squote := by
  intro fuel
  induction fuel with
  | zero =>
    intro n ds h c hc
    exact h c (by simpa [Nat.toDigitsCore] using hc)
  | succ f ih =>
    intro n ds h c hc
    rw [Nat.toDigitsCore] at hc
    by_cases hz : n / 10 = 0
    · rw [if_pos hz] at hc
      rcases List.mem_cons.mp hc with h1 | h2
      · rw [h1]; exact digitChar_ne_squote _ (Nat.mod_lt _ (by norm_num))
      · exact h c h2
    · rw [if_neg hz] at hc
      refine ih (n / 10) _ ?_ c hc
      intro x hx
      rcases List.mem_cons.mp hx with h1 | h2
      · rw [h1]; exact digitChar_ne_squote _ (Nat.mod_lt _ (by norm_num))
      · exact h x h2

theorem natRepr_ne_squote (n : Nat) : ∀ c ∈ (toString n).data, c ≠ squote := by
  intro c hc
  have : (toString n).data = Nat.toDigitsCore 10 (n + 1) n [] := rfl
  rw [this] at hc
  exact toDigitsCore_ne_squote (n + 1) n [] (by simp) c hc

theorem likeCond_fold (col v : String)
    (hcol : ∀ c ∈ col.data, c ≠ squote) :
    List.foldl sqlStep 0 (likeCond col v).data = 2 := by
  simp only [likeCond, String.data_append, sq, _escape_sql_string,
    List.foldl_append]
  rw [(by decide : List.foldl sqlStep 0 ['L', 'O', 'W', 'E', 'R', '('] = 0)]
  rw [noQuote_outside col.data hcol]
  rw [(by decide : List.foldl sqlStep 0 [')', ' ', 'L', 'I', 'K', 'E', ' '] = 0)]
  rw [(by decide : List.foldl sqlStep 0 [squote] = 1)]
  rw [(by decide : List.foldl sqlStep 1 ['%'] = 1)]
  rw [(by simpa using escChars_inside v.data [] :
    List.foldl sqlStep 1 (escChars v.data) = 1)]
  rw [(by decide : List.foldl sqlStep 1 ['%'] = 1)]
  decide

theorem senderCond_fold (s : String) :
    List.foldl sqlStep 0 (senderCond s).data = 2 :=
  likeCond_fold "sender" (lowerStr s) (by decide)

theorem searchCond_fold (s : String) :
    List.foldl sqlStep 0 (searchCond s).data = 2 :=
  likeCond_fold "message" (lowerStr s) (by decide)

theorem dateCond_fold (d : String) :
    List.foldl sqlStep 0 (dateCond d).data = 2 := by
  simp only [dateCond, String.data_append, sq, _escape_sql_string,
    List.foldl_append]
  rw [(by decide : List.foldl sqlStep 0 ['d', 'a', 't', 'e', ' ', '=', ' '] = 0)]
  rw [(by decide : List.foldl sqlStep 0 [squote] = 1)]
  rw [(by simpa using escChars_inside d.data [] :
    List.foldl sqlStep 1 (escChars d.data) = 1)]
  decide

theorem joinAnd_fold :
    ∀ conds : List String, (∀ c ∈ conds, List.foldl sqlStep 0 c.data = 2) →
      conds ≠ [] → List.foldl sqlStep 0 (joinAnd conds).data = 2 := by
  intro conds
  induction conds with
  | nil => intro _ hne; exact absurd rfl hne
  | cons c rest ih =>
    intro h _
    cases rest with
    | nil => simpa [joinAnd] using h c (by simp)
    | cons c2 r2 =>
      show List.foldl sqlStep 0 (c ++ " AND " ++ joinAnd (c2 :: r2)).data = 2
      simp only [String.data_append, List.foldl_append]
      rw [h c (by simp)]
      rw [(by decide : List.foldl sqlStep 2 [' ', 'A', 'N', 'D', ' '] = 0)]
      exact ih (fun x hx => h x (by simp [hx])) (by simp)

theorem buildQuery_wf (conds : List String)
    (h : ∀ c ∈ conds, List.foldl sqlStep 0 c.data = 2) (limit : Nat) :
    sqlWellFormed ("SELECT * FROM whatsapp_messages" ++
      (if conds.isEmpty then "" else " WHERE " ++ joinAnd conds) ++
      " ORDER BY date, time LIMIT " ++ toString limit) = true := by
  cases conds with
  | nil =>
    simp only [List.isEmpty_nil, if_pos, sqlWellFormed, String.data_append,
      List.foldl_append]
    rw [(by decide :
      List.foldl sqlStep 0 ("SELECT * FROM whatsapp_messages".data) = 0)]
    rw [(by decide : List.foldl sqlStep 0 ("".data) = 0)]
    rw [(by decide :
      List.foldl sqlStep 0 (" ORDER BY date, time LIMIT ".data) = 0)]
    rw [noQuote_outside _ (natRepr_ne_squote limit)]
    decide
  | cons c rest =>
    simp only [List.isEmpty_cons, if_neg, sqlWellFormed, String.data_append,
      List.foldl_append, Bool.false_eq_true, not_false_eq_true]
    rw [(by decide :
      List.foldl sqlStep 0 ("SELECT * FROM whatsapp_messages".data) = 0)]
    rw [(by decide : List.foldl sqlStep 0 (" WHERE ".data) = 0)]
    rw [joinAnd_fold (c :: rest) h (by simp)]
    rw [(by decide :
      List.foldl sqlStep 2 (" ORDER BY date, time LIMIT ".data) = 0)]
    rw [noQuote_outside _ (natRepr_ne_squote limit)]
    decide

/-- C3: every caller-supplied string parameter of the chat query is escaped by
doubling each embedded single quote before interpolation (the escaped text
contains exactly twice as many quote characters, all of them doubled), and
the full constructed SQL string is structurally valid: scanning it never
leaves an unterminated string literal, for every combination of sender,
search and date filters. -/
theorem chats_query_escaping :
    (∀ v : String,
      (escChars v.data).count squote = 2 * v.data.count squote) ∧
    (∀ v : String, ∀ r : List Char,
      List.foldl sqlStep 1 (escChars v.data ++ r) = List.foldl sqlStep 1 r) ∧
    (∀ (sender search date : Option String) (limit : Nat),
      sqlWellFormed (buildChatsQuery sender search date limit) = true) := by
  refine ⟨?_, fun v r => escChars_inside v.data r, ?_⟩
  · intro v
    induction v.data with
    | nil => rfl
    | cons c rest ih =>
      by_cases h : c = squote
      · subst h
        have he : escChars (squote :: rest) = squote :: squote :: escChars rest := by
          simp [escChars]
        rw [he]
        simp only [List.count_cons, ih, beq_self_eq_true, if_true]
        omega
      · have hb : (c == squote) = false := by simp [h]
        have he : escChars (c :: rest) = c :: escChars rest := by
          simp [escChars, h]
        rw [he]
        simp only [List.count_cons, ih, hb, Bool.false_eq_true, if_false]
        omega
  · intro sender search date limit
    rcases sender with _ | s <;> rcases search with _ | f <;>
      rcases date with _ | d
    · exact buildQuery_wf [] (by simp) limit
    · exact buildQuery_wf [dateCond d]
        (by intro c hc; rw [List.mem_singleton.mp hc]; exact dateCond_fold d) limit
    · exact buildQuery_wf [searchCond f]
        (by intro c hc; rw [List.mem_singleton.mp hc]; exact searchCond_fold f) limit
    · exact buildQuery_wf [searchCond f, dateCond d] (by
        intro c hc
        rcases List.mem_cons.mp hc with h1 | h2
        · rw [h1]; exact searchCond_fold f
        · rw [List.mem_singleton.mp h2]; exact dateCond_fold d) limit
    · exact buildQuery_wf [senderCond s]
        (by intro c hc; rw [List.mem_singleton.mp hc]; exact senderCond_fold s) limit
    · exact buildQuery_wf [senderCond s, dateCond d] (by
        intro c hc
        rcases List.mem_cons.mp hc with h1 | h2
        · rw [h1]; exact senderCond_fold s
        · rw [List.mem_singleton.mp h2]; exact dateCond_fold d) limit
    · exact buildQuery_wf [senderCond s, searchCond f] (by
        intro c hc
        rcases List.mem_cons.mp hc with h1 | h2
        · rw [h1]; exact senderCond_fold s
        · rw [List.mem_singleton.mp h2]; exact searchCond_fold f) limit
    · exact buildQuery_wf [senderCond s, searchCond f, dateCond d] (by
        intro c hc
        rcases List.mem_cons.mp hc with h1 | h23
        · rw [h1]; exact senderCond_fold s
        · rcases List.mem_cons.mp h23 with h2 | h3
          · rw [h2]; exact searchCond_fold f
          · rw [List.mem_singleton.mp h3]; exact dateCond_fold d) limit

/-! ## The Media Processor: thumbnail dimensions and tag derivation -/

def THUMBNAIL_MAX : Nat := 300

/-- Round `num / den` to the nearest integer, halves down (as Pillow's
`round_aspect` tie-break does). -/
def roundHalfDown (num den : Nat) : Nat := (2 * num + den - 1) / (2 * den)

/-- Modelled from the spec: the dimension arithmetic of Pillow
`Image.thumbnail((300, 300), LANCZOS)` as invoked by
`photo_processor/handler.py` (not under `src/`; the call is quoted in
`docs/LEARNING.md`): a no-op when the image already fits in the box,
otherwise the longest side becomes 300 and the other side is scaled by the
same ratio, rounded to the nearest integer and at least 1. -/
def thumbDims (w h : Nat) : Nat × Nat :=
  if w ≤ THUMBNAIL_MAX ∧ h ≤ THUMBNAIL_MAX then (w, h)
  else if h ≤ w then
    (THUMBNAIL_MAX, max 1 (roundHalfDown (h * THUMBNAIL_MAX) w))
  else
    (max 1 (roundHalfDown (w * THUMBNAIL_MAX) h), THUMBNAIL_MAX)

/-- Modelled from the spec: tag derivation of `photo_processor/handler.py`
(not under `src/`): `landscape` when `width > height * 1.05`, `portrait`
when `height > width * 1.05`, else `square` (`x * 1.05` is `x * 21 / 20`),
plus `flash` when the EXIF flash bit fired and `gps` when GPS sub-metadata
is present. -/
def deriveTags (w h : Nat) (flashFired gpsPresent : Bool) : List String :=
  (if 20 * w > 21 * h then ["landscape"]
   else if 20 * h > 21 * w then ["portrait"]
   else ["square"]) ++
  (if flashFired then ["flash"] else []) ++
  (if gpsPresent then ["gps"] else [])

/-- C5: the thumbnail never exceeds 300 pixels on either side, images
already within the bound are returned unchanged (never upscaled), in the
downscale case the longest side becomes exactly 300 with the short side
matching the original aspect ratio to within half a pixel, and concretely
4000×3000 becomes 300×225 while 100×80 stays 100×80. -/
theorem thumbnail_bound :
    (∀ w h : Nat, (thumbDims w h).1 ≤ 300 ∧ (thumbDims w h).2 ≤ 300) ∧
    (∀ w h : Nat, w ≤ 300 → h ≤ 300 → thumbDims w h = (w, h)) ∧
    (∀ w h : Nat, ¬(w ≤ 300 ∧ h ≤ 300) → h ≤ w → w < 600 * h →
      (thumbDims w h).1 = 300 ∧
      600 * h - w ≤ 2 * w * (thumbDims w h).2 ∧
      2 * w * (thumbDims w h).2 ≤ 600 * h + w - 1) ∧
    thumbDims 4000 3000 = (300, 225) ∧ thumbDims 100 80 = (100, 80) := by
  have hmax : THUMBNAIL_MAX = 300 := rfl
  refine ⟨?_, ?_, ?_, by decide, by decide⟩
  · intro w h
    by_cases h1 : w ≤ 300 ∧ h ≤ 300
    · simp only [thumbDims, hmax, if_pos h1]
      omega
    · by_cases h2 : h ≤ w
      · have hw : 301 ≤ w := by omega
        have hlt : roundHalfDown (h * 300) w < 301 := by
          rw [roundHalfDown, Nat.div_lt_iff_lt_mul (by omega : 0 < 2 * w)]
          omega
        simp only [thumbDims, hmax, if_neg h1, if_pos h2]
        exact ⟨le_refl 300, Nat.max_le.mpr ⟨by omega, by omega⟩⟩
      · have hh : 301 ≤ h := by omega
        have hlt : roundHalfDown (w * 300) h < 301 := by
          rw [roundHalfDown, Nat.div_lt_iff_lt_mul (by omega : 0 < 2 * h)]
          omega
        simp only [thumbDims, hmax, if_neg h1, if_neg h2]
        exact ⟨Nat.max_le.mpr ⟨by omega, by omega⟩, le_refl 300⟩
  · intro w h hw hh
    simp only [thumbDims, hmax, if_pos (And.intro hw hh)]
  · intro w h h1 h2 hnd
    have hw : 301 ≤ w := by omega
    simp only [thumbDims, hmax, if_neg h1, if_pos h2]
    refine ⟨by trivial, ?_⟩
    have hone : 1 ≤ roundHalfDown (h * 300) w := by
      rw [roundHalfDown, Nat.one_le_div_iff (by omega : 0 < 2 * w)]
      omega
    have hmx : max 1 (roundHalfDown (h * 300) w) = roundHalfDown (h * 300) w := by
      omega
    rw [hmx, roundHalfDown]
    have hdm := Nat.div_add_mod (2 * (h * 300) + w - 1) (2 * w)
    have hml : (2 * (h * 300) + w - 1) % (2 * w) < 2 * w :=
      Nat.mod_lt _ (by omega)
    omega

/-- Witness for C5: 4000×3000 is outside the bound with landscape
orientation and non-degenerate aspect, and its thumbnail has longest side
exactly 300 with the 3:4 ratio preserved to within rounding; 100×80 is
within the bound and is not upscaled. -/
theorem thumbnail_bound_witness :
    (¬((4000 : Nat) ≤ 300 ∧ (3000 : Nat) ≤ 300)) ∧
    ((3000 : Nat) ≤ 4000) ∧ ((4000 : Nat) < 600 * 3000) ∧
    ((thumbDims 4000 3000).1 = 300 ∧
      600 * 3000 - 4000 ≤ 2 * 4000 * (thumbDims 4000 3000).2 ∧
      2 * 4000 * (thumbDims 4000 3000).2 ≤ 600 * 3000 + 4000 - 1) ∧
    ((100 : Nat) ≤ 300) ∧ ((80 : Nat) ≤ 300) ∧
    thumbDims 100 80 = (100, 80) :=
  ⟨by decide, by decide, by decide,
    thumbnail_bound.2.2.1 4000 3000 (by decide) (by decide) (by decide),
    by decide, by decide,
    thumbnail_bound.2.1 100 80 (by decide) (by decide)⟩

/-- C6: the tag set is a pure function of the dimensions and the two EXIF
presence bits: it contains `landscape` iff `20w > 21h`, `portrait` iff
`20h > 21w`, `square` iff neither, `flash` iff the flash bit fired, `gps`
iff GPS sub-metadata is present, and nothing else; concretely 1920×1080 is
landscape, 1080×1920 portrait, and 500×500 square. -/
theorem tag_derivation :
    (∀ (w h : Nat) (f g : Bool),
      ("landscape" ∈ deriveTags w h f g ↔ 20 * w > 21 * h) ∧
      ("portrait" ∈ deriveTags w h f g ↔ 20 * h > 21 * w) ∧
      ("square" ∈ deriveTags w h f g ↔
        ¬(20 * w > 21 * h) ∧ ¬(20 * h > 21 * w)) ∧
      ("flash" ∈ deriveTags w h f g ↔ f = true) ∧
      ("gps" ∈ deriveTags w h f g ↔ g = true) ∧
      (∀ t ∈ deriveTags w h f g,
        t ∈ (["landscape", "portrait", "square", "flash", "gps"] : List String))) ∧
    deriveTags 1920 1080 false false = ["landscape"] ∧
    deriveTags 1080 1920 false false = ["portrait"] ∧
    deriveTags 500 500 false false = ["square"] := by
  refine ⟨?_, by decide, by decide, by decide⟩
  intro w h f g
  by_cases hL : 20 * w > 21 * h
  · have hP : ¬(20 * h > 21 * w) := by omega
    cases f <;> cases g <;> simp [deriveTags, hL, hP]
  · by_cases hP : 20 * h > 21 * w
    · cases f <;> cases g <;> simp [deriveTags, hL, hP]
    · cases f <;> cases g <;> simp [deriveTags, hL, hP]

/-- Witness for C6: a 1920×1080 image with the flash bit set is tagged with
`flash`, and `flash` is among the five permitted tags. -/
theorem tag_derivation_witness :
    ("flash" ∈ deriveTags 1920 1080 true false) ∧
    "flash" ∈ (["landscape", "portrait", "square", "flash", "gps"] : List String) :=
  ⟨by decide,
   (tag_derivation.1 1920 1080 true false).2.2.2.2.2 "flash" (by decide)⟩

/-! ## Athena polling and pagination (`whatsapp_api`)

The polling loop and result pagination are quoted in `docs/LEARNING.md`:
up to `MAX_POLLS = 60` polls with `POLL_SLEEP = 0.5` seconds between them;
`SUCCEEDED` breaks, `FAILED`/`CANCELLED` raise a `RuntimeError`, budget
exhaustion raises a distinct `TimeoutError`; result pages are walked via
`NextToken` with the header row dropped from the first page only. -/

inductive QueryState where
  | succeeded
  | failed
  | cancelled
  | running
  | queued
deriving DecidableEq, Repr

inductive PollResult where
  | success (pollsUsed : Nat)
  | stateError (s : QueryState)
  | timedOut
deriving DecidableEq, Repr

def MAX_POLLS : Nat := 60

def POLL_SLEEP : Rat := 1 / 2

/-- The polling loop body: inspect the engine state at attempt `i`, with
`fuel` attempts remaining. -/
def pollFrom (states : Nat → QueryState) : Nat → Nat → PollResult
  | _, 0 => .timedOut
  | i, fuel + 1 =>
    match states i with
    | .succeeded => .success i
    | .failed => .stateError .failed
    | .cancelled => .stateError .cancelled
    | _ => pollFrom states (i + 1) fuel

def pollLoop (states : Nat → QueryState) : PollResult :=
  pollFrom states 0 MAX_POLLS

def nonTerminal (s : QueryState) : Prop :=
  s ≠ .succeeded ∧ s ≠ .failed ∧ s ≠ .cancelled

instance (s : QueryState) : Decidable (nonTerminal s) := by
  unfold nonTerminal; infer_instance

/-- One page of Athena results: a list of rows, each a list of cell values. -/
abbrev ResultPage := List (List String)

/-- Pagination over `get_query_results` pages: the first page's leading
header row is stripped, later pages are concatenated whole. -/
def collectRows : List ResultPage → List (List String)
  | [] => []
  | firstPage :: rest => firstPage.drop 1 ++ rest.flatten

theorem pollFrom_congr :
    ∀ (fuel i : Nat) (s s' : Nat → QueryState),
      (∀ j, i ≤ j → j < i + fuel → s j = s' j) →
      pollFrom s i fuel = pollFrom s' i fuel := by
  intro fuel
  induction fuel with
  | zero => intro i s s' _; rfl
  | succ f ih =>
    intro i s s' hagree
    have h0 : s i = s' i := hagree i (Nat.le_refl i) (by omega)
    show (match s i with
      | .succeeded => PollResult.success i
      | .failed => PollResult.stateError .failed
      | .cancelled => PollResult.stateError .cancelled
      | _ => pollFrom s (i + 1) f) =
      (match s' i with
      | .succeeded => PollResult.success i
      | .failed => PollResult.stateError .failed
      | .cancelled => PollResult.stateError .cancelled
      | _ => pollFrom s' (i + 1) f)
    rw [← h0]
    cases s i <;> simp only []
    case running =>
      exact ih (i + 1) s s' (fun j hj1 hj2 => hagree j (by omega) (by omega))
    case queued =>
      exact ih (i + 1) s s' (fun j hj1 hj2 => hagree j (by omega) (by omega))

theorem pollFrom_timeout :
    ∀ (fuel i : Nat) (s : Nat → QueryState),
      (∀ j, i ≤ j → j < i + fuel → nonTerminal (s j)) →
      pollFrom s i fuel = .timedOut := by
  intro fuel
  induction fuel with
  | zero => intro i s _; rfl
  | succ f ih =>
    intro i s hnt
    obtain ⟨h1, h2, h3⟩ := hnt i (Nat.le_refl i) (by omega)
    show (match s i with
      | .succeeded => PollResult.success i
      | .failed => PollResult.stateError .failed
      | .cancelled => PollResult.stateError .cancelled
      | _ => pollFrom s (i + 1) f) = .timedOut
    cases hs : s i
    case succeeded => exact absurd hs h1
    case failed => exact absurd hs h2
    case cancelled => exact absurd hs h3
    case running =>
      exact ih (i + 1) s (fun j hj1 hj2 => hnt j (by omega) (by omega))
    case queued =>
      exact ih (i + 1) s (fun j hj1 hj2 => hnt j (by omega) (by omega))

theorem pollFrom_reach :
    ∀ (k fuel i : Nat) (s : Nat → QueryState), k < fuel →
      (∀ j, i ≤ j → j < i + k → nonTerminal (s j)) →
      (s (i + k) = .failed ∨ s (i + k) = .cancelled →
        pollFrom s i fuel = .stateError (s (i + k))) ∧
      (s (i + k) = .succeeded → pollFrom s i fuel = .success (i + k)) := by
  intro k
  induction k with
  | zero =>
    intro fuel i s hk _
    obtain ⟨f, rfl⟩ : ∃ f, fuel = f + 1 :=
      ⟨fuel - 1, by omega⟩
    simp only [Nat.add_zero]
    constructor
    · intro hterm
      show (match s i with
        | .succeeded => PollResult.success i
        | .failed => PollResult.stateError .failed
        | .cancelled => PollResult.stateError .cancelled
        | _ => pollFrom s (i + 1) f) = .stateError (s i)
      rcases hterm with hf | hc
      · rw [hf]
      · rw [hc]
    · intro hsucc
      show (match s i with
        | .succeeded => PollResult.success i
        | .failed => PollResult.stateError .failed
        | .cancelled => PollResult.stateError .cancelled
        | _ => pollFrom s (i + 1) f) = .success i
      rw [hsucc]
  | succ m ih =>
    intro fuel i s hk hnt
    obtain ⟨f, rfl⟩ : ∃ f, fuel = f + 1 := ⟨fuel - 1, by omega⟩
    obtain ⟨h1, h2, h3⟩ := hnt i (Nat.le_refl i) (by omega)
    have hstep : pollFrom s i (f + 1) = pollFrom s (i + 1) f := by
      show (match s i with
        | .succeeded => PollResult.success i
        | .failed => PollResult.stateError .failed
        | .cancelled => PollResult.stateError .cancelled
        | _ => pollFrom s (i + 1) f) = pollFrom s (i + 1) f
      cases hs : s i
      case succeeded => exact absurd hs h1
      case failed => exact absurd hs h2
      case cancelled => exact absurd hs h3
      case running => rfl
      case queued => rfl
    have hrec := ih f (i + 1) s (by omega)
      (fun j hj1 hj2 => hnt j (by omega) (by omega))
    have hidx : i + (m + 1) = i + 1 + m := by omega
    rw [hidx]
    exact ⟨fun ht => by rw [hstep]; exact hrec.1 ht,
      fun hsu => by rw [hstep]; exact hrec.2 hsu⟩

/-- C8: the query service polls the engine at most `MAX_POLLS = 60` times
(the outcome depends only on the first 60 engine states) with a fixed
half-second delay constant; a first terminal state of `FAILED` or
`CANCELLED` yields a state error, 60 non-terminal states yield a distinct
timeout error, a first terminal `SUCCEEDED` ends polling successfully, and
result pagination strips the leading header row from the first page only. -/
theorem athena_polling_pagination :
    MAX_POLLS = 60 ∧ POLL_SLEEP = 1 / 2 ∧
    (∀ s s' : Nat → QueryState, (∀ i < 60, s i = s' i) →
      pollLoop s = pollLoop s') ∧
    (∀ s : Nat → QueryState, (∀ i < 60, nonTerminal (s i)) →
      pollLoop s = .timedOut) ∧
    (∀ (s : Nat → QueryState) (i : Nat), i < 60 →
      (∀ j < i, nonTerminal (s j)) →
      ((s i = .failed ∨ s i = .cancelled → pollLoop s = .stateError (s i)) ∧
       (s i = .succeeded → pollLoop s = .success i))) ∧
    (∀ r : QueryState, PollResult.timedOut ≠ PollResult.stateError r) ∧
    (∀ (firstPage : ResultPage) (rest : List ResultPage),
      collectRows (firstPage :: rest) = firstPage.drop 1 ++ rest.flatten) := by
  refine ⟨rfl, rfl, ?hcongr, ?htime, ?hreach, ?hne, ?hcollect⟩
  case hne => exact fun r h => by cases h
  case hcollect => exact fun p rest => rfl
  case hcongr =>
    intro s s' hagree
    exact pollFrom_congr 60 0 s s' (fun j _ hj => hagree j (by omega))
  case htime =>
    intro s hnt
    exact pollFrom_timeout 60 0 s (fun j _ hj => hnt j (by omega))
  case hreach =>
    intro s i hi hnt
    have := pollFrom_reach i 60 0 s (by omega)
      (fun j _ hj => hnt j (by omega))
    simpa using this

/-- Witness for C8: a query that succeeds on the fourth poll succeeds with
three prior non-terminal polls; an always-running query times out; a query
failing on the second poll reports the failure state; a concrete two-page
result set keeps every row except the first page's header. -/
theorem athena_polling_pagination_witness :
    (∀ i < 60, (fun j => if j < 3 then QueryState.running else .succeeded) i =
      (fun j => if j < 3 then QueryState.running else .succeeded) i) ∧
    (∀ i < 60, nonTerminal ((fun _ => QueryState.running) i)) ∧
    pollLoop (fun _ => QueryState.running) = .timedOut ∧
    (∀ j < 1, nonTerminal ((fun i => if i = 0 then QueryState.queued else .failed) j)) ∧
    pollLoop (fun i => if i = 0 then QueryState.queued else .failed) =
      .stateError .failed ∧
    (∀ j < 3, nonTerminal ((fun j => if j < 3 then QueryState.running else .succeeded) j)) ∧
    pollLoop (fun j => if j < 3 then QueryState.running else .succeeded) =
      .success 3 ∧
    collectRows [[["h1", "h2"], ["a", "b"]], [["c", "d"]]] =
      [["a", "b"], ["c", "d"]] :=
  ⟨fun i _ => rfl,
   by decide,
   athena_polling_pagination.2.2.2.1 (fun _ => QueryState.running) (by decide),
   by decide,
   by
     have h := (athena_polling_pagination.2.2.2.2.1
       (fun i => if i = 0 then QueryState.queued else .failed) 1
       (by omega) (by decide)).1 (by decide)
     simpa using h,
   by decide,
   by
     have h := (athena_polling_pagination.2.2.2.2.1
       (fun j => if j < 3 then QueryState.running else .succeeded) 3
       (by omega) (by decide)).2 (by decide)
     simpa using h,
   by decide⟩

/-! ## PhotoMetadata records (`photo_processor`) -/

structure PhotoMetadata where
  photo_id : String
  filename : String
  original_key : String
  thumbnail_key : String
  source_key : String
deriving DecidableEq, Repr

/-- Last `/`-separated component of a key. -/
def basenameOf (key : String) : String :=
  match (splitOnChar '/' key.data).getLast? with
  | some l => String.mk l
  | none => key

/-- Modelled from the spec: the metadata record written by
`photo_processor/handler.py` (not under `src/`; fields per
`docs/LAMBDAS.md`): `photo_id` is the freshly generated random UUID of the
invocation (an environment input here), while both S3 output keys and the
source key are derived from the uploaded filename alone. -/
def photo_processor_record (sourceKey uuid : String) : PhotoMetadata :=
  { photo_id := uuid,
    filename := basenameOf sourceKey,
    original_key := "photos/originals/" ++ basenameOf sourceKey,
    thumbnail_key := "photos/thumbnails/" ++ basenameOf sourceKey,
    source_key := sourceKey }

/-- C9: PhotoMetadata creation is not idempotent under retry: two
invocations on the same image with distinct freshly drawn UUIDs produce two
records that differ (a duplicate pair, distinguished exactly by their
`photo_id`, which is the raw UUID and not a function of `source_key`),
while the S3 original and thumbnail writes of both invocations target
identical keys. -/
theorem photo_metadata_not_idempotent :
    ∀ (sourceKey u1 u2 : String), u1 ≠ u2 →
      (photo_processor_record sourceKey u1).photo_id ≠
        (photo_processor_record sourceKey u2).photo_id ∧
      photo_processor_record sourceKey u1 ≠ photo_processor_record sourceKey u2 ∧
      (photo_processor_record sourceKey u1).original_key =
        (photo_processor_record sourceKey u2).original_key ∧
      (photo_processor_record sourceKey u1).thumbnail_key =
        (photo_processor_record sourceKey u2).thumbnail_key ∧
      (photo_processor_record sourceKey u1).photo_id = u1 := by
  intro sourceKey u1 u2 hne
  exact ⟨hne, fun he => hne (congrArg PhotoMetadata.photo_id he), rfl, rfl, rfl⟩

/-- Witness for C9: the same `raw-photos/photo.jpg` processed under two
distinct UUID draws yields two distinct records with equal S3 keys. -/
theorem photo_metadata_not_idempotent_witness :
    ("550e8400-e29b-41d4-a716-446655440000" : String) ≠
      "16fd2706-8baf-433b-82eb-8c7fada847da" ∧
    (photo_processor_record "raw-photos/photo.jpg"
        "550e8400-e29b-41d4-a716-446655440000").photo_id ≠
      (photo_processor_record "raw-photos/photo.jpg"
        "16fd2706-8baf-433b-82eb-8c7fada847da").photo_id ∧
    (photo_processor_record "raw-photos/photo.jpg"
        "550e8400-e29b-41d4-a716-446655440000").original_key =
      (photo_processor_record "raw-photos/photo.jpg"
        "16fd2706-8baf-433b-82eb-8c7fada847da").original_key :=
  ⟨by decide,
   (photo_metadata_not_idempotent "raw-photos/photo.jpg"
     "550e8400-e29b-41d4-a716-446655440000"
     "16fd2706-8baf-433b-82eb-8c7fada847da" (by decide)).1,
   (photo_metadata_not_idempotent "raw-photos/photo.jpg"
     "550e8400-e29b-41d4-a716-446655440000"
     "16fd2706-8baf-433b-82eb-8c7fada847da" (by decide)).2.2.1⟩

/-! ## The home-page upload router (`HomePage.jsx`) -/

/-- The expression `fileName.split(".").pop().toLowerCase()` of `HomePage.jsx`: the
lowercased last `.`-separated component (for a filename without a dot,
`split` yields the whole name as its only component). -/
def extOf (fileName : String) : String :=
  match (splitOnChar '.' fileName.data).getLast? with
  | some l => lowerStr (String.mk l)
  | none => fileName

/-- The upload destination of `handleUpload` in `HomePage.jsx`: a storage
path chosen from the filename extension alone (the file's content type is
never consulted). -/
def storagePath (fileName : String) : String :=
  let extension := extOf fileName
  if extension = "zip" then "uploads-landing/" ++ fileName
  else if extension = "txt" then "raw-whatsapp-uploads/" ++ fileName
  else if extension = "jpg" ∨ extension = "jpeg" ∨ extension = "png" ∨
      extension = "webp" then "raw-photos/" ++ fileName
  else "misc/" ++ fileName

/-- The destination prefix as a function of the extension alone (the shape
the claim asserts for `storagePath`). -/
def destDirFor (ext : String) : String :=
  if ext = "zip" then "uploads-landing/"
  else if ext = "txt" then "raw-whatsapp-uploads/"
  else if ext = "jpg" ∨ ext = "jpeg" ∨ ext = "png" ∨ ext = "webp" then
    "raw-photos/"
  else "misc/"

/-- C10 counterexample: a file named exactly `txt` (no dot) is routed to the
chat pipeline prefix `raw-whatsapp-uploads/` even though it is not named
`*.txt` (it does not end with `.txt`), refuting both the claim's reading of
the extension as "the substring after the last dot" and its conclusion that
only files named `*.txt` can reach the chat pipeline. -/
theorem upload_router_counterexample :
    storagePath "txt" = "raw-whatsapp-uploads/txt" ∧
    (List.isSuffixOf ".txt".data "txt".data) = false := by
  constructor
  · decide
  · decide

/-- C10 (amended): the destination prefix is a pure function of the
lowercased last dot-separated component of the filename — the whole name
when it contains no dot — with `zip` mapping to `uploads-landing/`, `txt`
to `raw-whatsapp-uploads/`, the four image extensions to `raw-photos/` and
everything else to `misc/`, independent of content type; exactly the
filenames whose last component lowercases to `txt` (including the dotless
name `txt` itself) reach the chat pipeline prefix, and exactly those with
an image extension reach the photo pipeline prefix. -/
theorem upload_router_pure_function :
    (∀ fileName : String,
      storagePath fileName = destDirFor (extOf fileName) ++ fileName) ∧
    (∀ e : String, destDirFor e = "raw-whatsapp-uploads/" ↔ e = "txt") ∧
    (∀ e : String, destDirFor e = "raw-photos/" ↔
      (e = "jpg" ∨ e = "jpeg" ∨ e = "png" ∨ e = "webp")) ∧
    (∀ e : String, destDirFor e = "uploads-landing/" ↔ e = "zip") ∧
    extOf "txt" = "txt" := by
  refine ⟨?_, ?_, ?_, ?_, by decide⟩
  · intro fileName
    by_cases h1 : extOf fileName = "zip"
    · simp [storagePath, destDirFor, h1]
    · by_cases h2 : extOf fileName = "txt"
      · simp [storagePath, destDirFor, h1, h2]
      · by_cases h3 : extOf fileName = "jpg" ∨ extOf fileName = "jpeg" ∨
            extOf fileName = "png" ∨ extOf fileName = "webp"
        · simp [storagePath, destDirFor, h1, h2, h3]
        · simp [storagePath, destDirFor, h1, h2, h3]
  · intro e
    constructor
    · intro hd
      by_cases h1 : e = "zip"
      · rw [destDirFor, if_pos h1] at hd; exact absurd hd (by decide)
      · by_cases h2 : e = "txt"
        · exact h2
        · by_cases h3 : e = "jpg" ∨ e = "jpeg" ∨ e = "png" ∨ e = "webp"
          · rw [destDirFor, if_neg h1, if_neg h2, if_pos h3] at hd
            exact absurd hd (by decide)
          · rw [destDirFor, if_neg h1, if_neg h2, if_neg h3] at hd
            exact absurd hd (by decide)
    · intro he; subst he; decide
  · intro e
    constructor
    · intro hd
      by_cases h1 : e = "zip"
      · rw [destDirFor, if_pos h1] at hd; exact absurd hd (by decide)
      · by_cases h2 : e = "txt"
        · rw [destDirFor, if_neg h1, if_pos h2] at hd
          exact absurd hd (by decide)
        · by_cases h3 : e = "jpg" ∨ e = "jpeg" ∨ e = "png" ∨ e = "webp"
          · exact h3
          · rw [destDirFor, if_neg h1, if_neg h2, if_neg h3] at hd
            exact absurd hd (by decide)
    · intro he
      rcases he with h | h | h | h <;> subst h <;> decide
  · intro e
    constructor
    · intro hd
      by_cases h1 : e = "zip"
      · exact h1
      · by_cases h2 : e = "txt"
        · rw [destDirFor, if_neg h1, if_pos h2] at hd
          exact absurd hd (by decide)
        · by_cases h3 : e = "jpg" ∨ e = "jpeg" ∨ e = "png" ∨ e = "webp"
          · rw [destDirFor, if_neg h1, if_neg h2, if_pos h3] at hd
            exact absurd hd (by decide)
          · rw [destDirFor, if_neg h1, if_neg h2, if_neg h3] at hd
            exact absurd hd (by decide)
    · intro he; subst he; decide

/-- Witness for the amended C10: a mixed-case `Chat.TXT` is routed through
the pure extension function, the chat-pipeline prefix is reached exactly by
extension `txt`, and a dotless filename is its own extension. -/
theorem upload_router_pure_function_witness :
    storagePath "Chat.TXT" = destDirFor (extOf "Chat.TXT") ++ "Chat.TXT" ∧
    destDirFor "txt" = "raw-whatsapp-uploads/" ∧
    extOf "txt" = "txt" :=
  ⟨upload_router_pure_function.1 "Chat.TXT",
   (upload_router_pure_function.2.1 "txt").mpr rfl,
   upload_router_pure_function.2.2.2.2⟩

/-! ## Theorems about date normalisation -/

/-- C7: `parse_date_iso` tries exactly the four formats `%m/%d/%y`,
`%m/%d/%Y`, `%d/%m/%y`, `%d/%m/%Y` in that fixed priority order (the first
success wins), and when none of the four matches, the raw string is returned
verbatim — normalisation is total and never raises. -/
theorem parse_date_iso_fixed_order_total :
    DATE_FORMATS = [⟨true, true⟩, ⟨true, false⟩, ⟨false, true⟩, ⟨false, false⟩] ∧
    (∀ s : String,
      parse_date_iso s =
        ((tryStrptime ⟨true, true⟩ s).orElse (fun _ =>
          (tryStrptime ⟨true, false⟩ s).orElse (fun _ =>
          (tryStrptime ⟨false, true⟩ s).orElse (fun _ =>
          tryStrptime ⟨false, false⟩ s)))).getD s) ∧
    (∀ s : String, (∀ f ∈ DATE_FORMATS, tryStrptime f s = none) →
      parse_date_iso s = s) := by
  have hchain : ∀ s : String,
      parse_date_iso s =
        ((tryStrptime ⟨true, true⟩ s).orElse (fun _ =>
          (tryStrptime ⟨true, false⟩ s).orElse (fun _ =>
          (tryStrptime ⟨false, true⟩ s).orElse (fun _ =>
          tryStrptime ⟨false, false⟩ s)))).getD s := by
    intro s
    simp only [parse_date_iso, DATE_FORMATS, List.filterMap]
    cases tryStrptime ⟨true, true⟩ s <;>
      cases tryStrptime ⟨true, false⟩ s <;>
        cases tryStrptime ⟨false, true⟩ s <;>
          cases tryStrptime ⟨false, false⟩ s <;> rfl
  refine ⟨rfl, hchain, ?_⟩
  intro s hnone
  rw [hchain s,
    hnone ⟨true, true⟩ (by simp [DATE_FORMATS]),
    hnone ⟨true, false⟩ (by simp [DATE_FORMATS]),
    hnone ⟨false, true⟩ (by simp [DATE_FORMATS]),
    hnone ⟨false, false⟩ (by simp [DATE_FORMATS])]
  rfl

/-- Witness for C7: on `"13/13/13"` all four formats fail (month 13 is out of
range either way round, and the year has the wrong digit count for `%Y`), and
the raw string is retained verbatim. -/
theorem parse_date_iso_fixed_order_total_witness :
    (∀ f ∈ DATE_FORMATS, tryStrptime f "13/13/13" = none) ∧
      parse_date_iso "13/13/13" = "13/13/13" :=
  ⟨by decide, parse_date_iso_fixed_order_total.2.2 "13/13/13" (by decide)⟩

end DataPlatform
